import Mathlib

/-!
Verification of the annotation tool's data layer
(`src/app.py` of streamlit-annotation-app).

The Annotation Store is a CSV file manipulated through pandas; we embed it
as an optional list of typed rows (`none` = the file does not exist,
`some df` = the file holds the rows `df` in file order).  The pandas
read/write round trip on well-formed rows is the identity, so the
operations are modelled directly on the row lists:

* `update_annotation` embeds `update_annotation` (app.py:84-125): pandas
  `df.loc[mask, col] = v` assigns every row matched by the mask, which the
  embedding renders as a `map` over the row list.
* `get_annotation` embeds `get_annotation` (app.py:43-61): `df[mask].iloc[0]`
  is the first row in file order satisfying the mask.
* `get_annotations_for_rater` embeds `get_annotations_for_rater`
  (app.py:63-82): the Python dict built row by row keeps the insertion
  position of a key and overwrites its value on re-insertion, which
  `dictInsert` reproduces on an association list.
* `load_speeches` embeds `load_speeches` (app.py:21-41) with the parsed
  file content as input; `TEST_MODE` and `TEST_SPEECHES_COUNT` are the
  module-level configuration constants (app.py:15-16).
* `handle_submission` embeds the form-submission branch of `main`
  (app.py:446-471).
-/

/-- One row of the annotations.csv table: the six named columns. -/
structure Row where
  item_id : String
  rater_id : String
  score : Int
  justification : String
  context : String
  statement : String
deriving Repr, DecidableEq

/-- What `get_annotation` returns when a row is found: the dict
with keys score (as `int(row['score'])`) and justification. -/
structure Ann where
  score : Int
  justification : String
deriving Repr, DecidableEq

/-- The pandas mask `(df['item_id'] == item_id) & (df['rater_id'] == rater_id)`
evaluated at one row. -/
def keyMatch (item_id rater_id : String) (r : Row) : Bool :=
  r.item_id == item_id && r.rater_id == rater_id

/-- The composite key of a row. -/
def rowKey (r : Row) : String × String :=
  (r.item_id, r.rater_id)

/-- Rows of an optional store file (`none` = file absent). -/
def storeRows (store : Option (List Row)) : List Row :=
  store.getD []

/-- The effect of `df.loc[mask, col] = v` for the four mutable columns on
one row: a row matched by the mask gets the new field values, any other row
is untouched. -/
def overwriteRow (item_id rater_id : String) (score : Int)
    (justification context statement : String) (r : Row) : Row :=
  if keyMatch item_id rater_id r then
    { r with score := score, justification := justification,
             context := context, statement := statement }
  else r

/-- Embeds `update_annotation(item_id, rater_id, score, justification,
context, statement)` (app.py:84-125).  If the file does not exist the new
table holds exactly the one record; otherwise, when the mask matches, every
matched row has its four mutable columns overwritten in place
(`df.loc[mask, ...] = ...`), and when it matches nothing the new row is
appended (`pd.concat(..., ignore_index=True)`). -/
def update_annotation (store : Option (List Row)) (item_id rater_id : String)
    (score : Int) (justification context statement : String) : List Row :=
  match store with
  | none => [⟨item_id, rater_id, score, justification, context, statement⟩]
  | some df =>
    if df.any (keyMatch item_id rater_id) then
      df.map (overwriteRow item_id rater_id score justification context
        statement)
    else
      df ++ [⟨item_id, rater_id, score, justification, context, statement⟩]

/-- Embeds `get_annotation(item_id, rater_id)` (app.py:43-61): `None` when
the file is absent or the mask matches nothing, else the score and
justification of `df[mask].iloc[0]`, the first matching row in file order. -/
def get_annotation (store : Option (List Row)) (item_id rater_id : String) :
    Option Ann :=
  match store with
  | none => none
  | some df =>
    match df.filter (keyMatch item_id rater_id) with
    | [] => none
    | r :: _ => some ⟨r.score, r.justification⟩

/-- One Python dict insertion `annotations[k] = v`: an existing key keeps
its position and gets the new value, a new key is appended. -/
def dictInsert (m : List (String × Ann)) (k : String) (v : Ann) :
    List (String × Ann) :=
  if m.any (fun p => p.1 == k) then
    m.map (fun p => if p.1 == k then (k, v) else p)
  else
    m ++ [(k, v)]

/-- The loop body of `get_annotations_for_rater`:
`annotations[row['item_id']] = {'score': int(row['score']),
'justification': row['justification']}`. -/
def insRow (m : List (String × Ann)) (r : Row) : List (String × Ann) :=
  dictInsert m r.item_id ⟨r.score, r.justification⟩

/-- Embeds `get_annotations_for_rater(rater_id)` (app.py:63-82): the empty
dict when the file is absent, else the dict built by inserting
`row['item_id'] -> {score, justification}` for each row of
`df[df['rater_id'] == rater_id]` in file order. -/
def get_annotations_for_rater (store : Option (List Row)) (rater_id : String) :
    List (String × Ann) :=
  match store with
  | none => []
  | some df =>
    (df.filter (fun r => r.rater_id == rater_id)).foldl insRow []

/-- Configuration constant `TEST_MODE` (app.py:15). -/
def TEST_MODE : Bool := true

/-- Configuration constant `TEST_SPEECHES_COUNT` (app.py:16). -/
def TEST_SPEECHES_COUNT : Nat := 3

/-- One element of the `speeches` collection of sampled_speeches.json. -/
structure Speech where
  speech_id : String
  topic : String
  speaker : String
  text : String
  context : List String
deriving Repr, DecidableEq

/-- Embeds `load_speeches` (app.py:21-41) on the parsed content
`data['speeches']`: in test mode the list is truncated to its first
`TEST_SPEECHES_COUNT` elements (`speeches[:TEST_SPEECHES_COUNT]`). -/
def load_speeches (data : List Speech) : List Speech :=
  if TEST_MODE then data.take TEST_SPEECHES_COUNT else data

/-- Session state touched by a submission (app.py:256-261, 446-471). -/
structure Session where
  show_intro : Bool
  current_idx : Nat
  rater_id : String
deriving Repr, DecidableEq

/-- Outcome of a form submission: blocked by validation, or saved. -/
inductive SubmitOutcome where
  | validationError
  | saved
deriving Repr, DecidableEq

/-- The string `" | ".join(current_speech['context']) if ... else ""`
(app.py:453). -/
def contextStr (context : List String) : String :=
  String.intercalate " | " context

/-- Python `justification.strip()`: the justification with leading and
trailing whitespace removed (structural definition on the character list,
so that it evaluates). -/
def pyStrip (s : String) : String :=
  String.mk (((s.data.dropWhile Char.isWhitespace).reverse.dropWhile
    Char.isWhitespace).reverse)

/-- Embeds the `if submitted:` branch of `main` (app.py:448-471): an empty
(after `strip()`) justification shows an inline error and changes nothing;
otherwise `update_annotation` runs with the stripped justification and the
cursor auto-advances when not at the last speech. -/
def handle_submission (sess : Session) (store : Option (List Row))
    (total_speeches : Nat) (speech : Speech) (score : Int)
    (justification : String) :
    Session × Option (List Row) × SubmitOutcome :=
  if pyStrip justification = "" then
    (sess, store, SubmitOutcome.validationError)
  else
    let df := update_annotation store speech.speech_id sess.rater_id score
      (pyStrip justification) (contextStr speech.context) speech.text
    let sess2 :=
      if sess.current_idx < total_speeches - 1 then
        { sess with current_idx := sess.current_idx + 1 }
      else sess
    (sess2, some df, SubmitOutcome.saved)

/-- One upsert call's arguments, for reasoning about call sequences. -/
structure Call where
  item_id : String
  rater_id : String
  score : Int
  justification : String
  context : String
  statement : String
deriving Repr, DecidableEq

/-- The (item, rater) pair of a call. -/
def callKey (c : Call) : String × String :=
  (c.item_id, c.rater_id)

/-- Apply one upsert call to a store's rows. -/
def applyCall (df : List Row) (c : Call) : List Row :=
  update_annotation (some df) c.item_id c.rater_id c.score c.justification
    c.context c.statement

/-- Apply a sequence of upsert calls in order, starting from rows `df`. -/
def runUpserts (df : List Row) (cs : List Call) : List Row :=
  cs.foldl applyCall df

/-- Number of rows of `df` for the key (item_id, rater_id). -/
def countKey (df : List Row) (item_id rater_id : String) : Nat :=
  (df.filter (keyMatch item_id rater_id)).length

/-- Apply a sequence of upsert calls to an optional store file (the file is
created by the first call when absent). -/
def runUpsertsFile (store : Option (List Row)) (cs : List Call) :
    Option (List Row) :=
  cs.foldl
    (fun st c => some ( update_annotation st c.item_id c.rater_id c.score
      c.justification c.context c.statement)) store

/-- Durable content of the store file if the process crashes after `k` rows
of the new table have been written.  `update_annotation` persists with
`df.to_csv(ANNOTATIONS_FILE, index=False)` (app.py:98 and app.py:125),
which rewrites the destination file in place — there is no
write-to-temp-then-rename step — so a crash mid-write leaves only a prefix
of the new table on disk, regardless of what the file held before. -/
def crashPrefix (rows : List Row) (k : Nat) : List Row :=
  rows.take k

example : update_annotation none "i" "r" 5 "a" "c" "s" =
    [⟨"i", "r", 5, "a", "c", "s"⟩] := by decide

example : update_annotation
    (some [⟨"i", "r", 5, "a", "c", "s"⟩]) "i" "r" 2 "b" "c" "s" =
    [⟨"i", "r", 2, "b", "c", "s"⟩] := by decide

example : get_annotation (some [⟨"i", "r", 5, "a", "c", "s"⟩]) "i" "r" =
    some ⟨5, "a"⟩ := by decide

example : get_annotations_for_rater
    (some [⟨"i", "r", 5, "a", "c", "s"⟩, ⟨"j", "r", 4, "b", "c", "s"⟩]) "r" =
    [("i", ⟨5, "a"⟩), ("j", ⟨4, "b"⟩)] := by decide

/-! ### Basic lemmas about the store operations -/

theorem keyMatch_iff {i r : String} {x : Row} :
    keyMatch i r x = true ↔ x.item_id = i ∧ x.rater_id = r := by
  simp [keyMatch]

theorem rowKey_overwriteRow (i r : String) (sc : Int) (j c s : String)
    (x : Row) :
    rowKey (overwriteRow i r sc j c s x) = rowKey x := by
  unfold overwriteRow
  split <;> rfl

theorem keyMatch_overwriteRow (i r : String) (sc : Int) (j c s : String)
    (x : Row) :
    keyMatch i r (overwriteRow i r sc j c s x) = keyMatch i r x := by
  unfold overwriteRow
  split <;> rfl

theorem overwriteRow_of_match {i r : String} {x : Row} (sc : Int)
    (j c s : String) (h : keyMatch i r x = true) :
    overwriteRow i r sc j c s x = ⟨i, r, sc, j, c, s⟩ := by
  rcases keyMatch_iff.mp h with ⟨h1, h2⟩
  simp [overwriteRow, h, h1, h2]

theorem keyMatch_newRow (i r : String) (sc : Int) (j c s : String) :
    keyMatch i r ⟨i, r, sc, j, c, s⟩ = true := by
  simp [keyMatch]

theorem any_keyMatch_iff {df : List Row} {i r : String} :
    df.any (keyMatch i r) = true ↔ (i, r) ∈ df.map rowKey := by
  simp only [List.any_eq_true, List.mem_map, keyMatch_iff, rowKey]
  constructor
  · rintro ⟨x, hx, h1, h2⟩
    exact ⟨x, hx, by simp [h1, h2]⟩
  · rintro ⟨x, hx, hk⟩
    exact ⟨x, hx, congrArg Prod.fst hk, congrArg Prod.snd hk⟩

theorem upsert_none (i r : String) (sc : Int) (j c s : String) :
    update_annotation none i r sc j c s =
      update_annotation (some []) i r sc j c s := rfl

theorem upsert_storeRows (store : Option (List Row)) (i r : String)
    (sc : Int) (j c s : String) :
    update_annotation store i r sc j c s =
      update_annotation (some (storeRows store)) i r sc j c s := by
  cases store <;> rfl

theorem map_rowKey_upsert (df : List Row) (i r : String) (sc : Int)
    (j c s : String) :
    ( update_annotation (some df) i r sc j c s).map rowKey =
      if df.any (keyMatch i r) then df.map rowKey
      else df.map rowKey ++ [(i, r)] := by
  unfold update_annotation
  by_cases h : df.any (keyMatch i r) = true
  · simp only [h, if_true, List.map_map]
    exact List.map_congr_left fun x _ => rowKey_overwriteRow i r sc j c s x
  · simp only [h]
    simp [rowKey]

theorem filter_keyMatch_upsert (df : List Row) (i r : String) (sc : Int)
    (j c s : String) (h : countKey df i r ≤ 1) :
    ( update_annotation (some df) i r sc j c s).filter (keyMatch i r) =
      [⟨i, r, sc, j, c, s⟩] := by
  unfold update_annotation
  by_cases hany : df.any (keyMatch i r) = true
  · simp only [hany, if_true]
    have hfc : df.filter (keyMatch i r ∘ overwriteRow i r sc j c s) =
        df.filter (keyMatch i r) :=
      List.filter_congr fun x _ => keyMatch_overwriteRow i r sc j c s x
    rw [List.filter_map, hfc]
    rcases List.any_eq_true.mp hany with ⟨x, hx, hkx⟩
    have hmem : x ∈ df.filter (keyMatch i r) := List.mem_filter.mpr ⟨hx, hkx⟩
    unfold countKey at h
    match e : df.filter (keyMatch i r) with
    | [] => rw [e] at hmem; cases hmem
    | [y] =>
      have hy : keyMatch i r y = true := by
        have : y ∈ df.filter (keyMatch i r) := by rw [e]; exact List.mem_singleton.mpr rfl
        exact (List.mem_filter.mp this).2
      simp [overwriteRow_of_match sc j c s hy]
    | y :: z :: rest => rw [e] at h; simp at h
  · simp only [hany]
    have hnil : df.filter (keyMatch i r) = [] :=
      List.filter_eq_nil_iff.mpr fun a ha =>
        by simpa using List.any_eq_false.mp (Bool.eq_false_iff.mpr hany) a ha
    simp [List.filter_append, hnil, keyMatch_newRow]

theorem countKey_upsert (df : List Row) (i r : String) (sc : Int)
    (j c s : String) (h : countKey df i r ≤ 1) :
    countKey ( update_annotation (some df) i r sc j c s) i r = 1 := by
  unfold countKey
  rw [filter_keyMatch_upsert df i r sc j c s h]
  rfl

/-! ### Key-set lemmas for sequences of upserts -/

theorem map_rowKey_applyCall (df : List Row) (c : Call) :
    ( applyCall df c).map rowKey =
      if callKey c ∈ df.map rowKey then df.map rowKey
      else df.map rowKey ++ [callKey c] := by
  unfold applyCall callKey
  rw [map_rowKey_upsert]
  by_cases h : (c.item_id, c.rater_id) ∈ df.map rowKey
  · have ha : df.any (keyMatch c.item_id c.rater_id) = true :=
      any_keyMatch_iff.mpr h
    simp [ha, h]
  · have ha : df.any (keyMatch c.item_id c.rater_id) = false :=
      Bool.eq_false_iff.mpr fun hh => h (any_keyMatch_iff.mp hh)
    simp [ha, h]

theorem nodupKeys_applyCall (df : List Row) (c : Call)
    (h : (df.map rowKey).Nodup) : (( applyCall df c).map rowKey).Nodup := by
  rw [map_rowKey_applyCall]
  by_cases hm : callKey c ∈ df.map rowKey
  · simpa [hm] using h
  · simp [hm, h, List.nodup_append]

theorem keyFinset_applyCall (df : List Row) (c : Call) :
    (( applyCall df c).map rowKey).toFinset =
      insert (callKey c) (df.map rowKey).toFinset := by
  rw [map_rowKey_applyCall]
  by_cases hm : callKey c ∈ df.map rowKey
  · simp [hm, Finset.insert_eq_self, List.mem_toFinset]
  · simp [hm, List.toFinset_append, Finset.insert_eq, Finset.union_comm]

theorem runUpserts_keys : ∀ (cs : List Call) (df : List Row),
    (df.map rowKey).Nodup →
    ((( runUpserts df cs).map rowKey).Nodup ∧
      (( runUpserts df cs).map rowKey).toFinset =
        (df.map rowKey).toFinset ∪ (cs.map callKey).toFinset)
  | [], df, h => by simp [runUpserts, h]
  | c :: cs, df, h => by
    have h1 := nodupKeys_applyCall df c h
    have ih := runUpserts_keys cs ( applyCall df c) h1
    have hstep : runUpserts df (c :: cs) = runUpserts ( applyCall df c) cs :=
      rfl
    refine ⟨by rw [hstep]; exact ih.1, ?_⟩
    rw [hstep, ih.2, keyFinset_applyCall]
    simp [List.toFinset_cons, Finset.insert_union, Finset.union_insert]

theorem runUpsertsFile_some : ∀ (cs : List Call) (df : List Row),
    runUpsertsFile (some df) cs = some ( runUpserts df cs)
  | [], _ => rfl
  | c :: cs, df => by
    have h1 : runUpsertsFile (some df) (c :: cs) =
        runUpsertsFile (some ( applyCall df c)) cs := rfl
    rw [h1, runUpsertsFile_some cs ( applyCall df c)]
    rfl

theorem storeRows_runUpsertsFile_none : ∀ cs : List Call,
    storeRows ( runUpsertsFile none cs) = runUpserts [] cs
  | [] => rfl
  | c :: cs => by
    have h1 : runUpsertsFile none (c :: cs) =
        runUpsertsFile (some ( applyCall [] c)) cs := rfl
    rw [h1, runUpsertsFile_some cs ( applyCall [] c)]
    rfl

/-! ### Key-set lemmas for the per-rater dict -/

theorem any_fst_iff {m : List (String × Ann)} {k : String} :
    (m.any fun p => p.1 == k) = true ↔ k ∈ m.map Prod.fst := by
  simp only [List.any_eq_true, beq_iff_eq, List.mem_map]

theorem map_fst_dictInsert (m : List (String × Ann)) (k : String) (v : Ann) :
    (dictInsert m k v).map Prod.fst =
      if k ∈ m.map Prod.fst then m.map Prod.fst
      else m.map Prod.fst ++ [k] := by
  unfold dictInsert
  by_cases h : k ∈ m.map Prod.fst
  · have ha : (m.any fun p => p.1 == k) = true := any_fst_iff.mpr h
    simp only [ha, if_true, h, List.map_map]
    refine List.map_congr_left fun p _ => ?_
    by_cases hp : p.1 = k
    · simp [hp]
    · simp [hp]
  · have ha : (m.any fun p => p.1 == k) = false :=
      Bool.eq_false_iff.mpr fun hh => h (any_fst_iff.mp hh)
    simp [ha, h]

theorem nodup_fst_insRow (m : List (String × Ann)) (r : Row)
    (h : (m.map Prod.fst).Nodup) : (( insRow m r).map Prod.fst).Nodup := by
  unfold insRow
  rw [map_fst_dictInsert]
  by_cases hm : r.item_id ∈ m.map Prod.fst
  · simpa [hm] using h
  · simp [hm, h, List.nodup_append]

theorem fstFinset_insRow (m : List (String × Ann)) (r : Row) :
    (( insRow m r).map Prod.fst).toFinset =
      insert r.item_id (m.map Prod.fst).toFinset := by
  unfold insRow
  rw [map_fst_dictInsert]
  by_cases hm : r.item_id ∈ m.map Prod.fst
  · simp [hm, Finset.insert_eq_self, List.mem_toFinset]
  · simp [hm, List.toFinset_append, Finset.insert_eq, Finset.union_comm]

theorem dictFold_keys : ∀ (rows : List Row) (m : List (String × Ann)),
    (m.map Prod.fst).Nodup →
    (((rows.foldl insRow m).map Prod.fst).Nodup ∧
      ((rows.foldl insRow m).map Prod.fst).toFinset =
        (m.map Prod.fst).toFinset ∪ (rows.map Row.item_id).toFinset)
  | [], m, h => by simp [h]
  | r :: rows, m, h => by
    have h1 := nodup_fst_insRow m r h
    have ih := dictFold_keys rows ( insRow m r) h1
    have hstep : (r :: rows).foldl insRow m = rows.foldl insRow ( insRow m r) :=
      rfl
    refine ⟨by rw [hstep]; exact ih.1, ?_⟩
    rw [hstep, ih.2, fstFinset_insRow]
    simp [List.toFinset_cons, Finset.insert_union, Finset.union_insert]

/-! ### Upsert membership, idempotence, and lookup lemmas -/

theorem mem_upsert_match (store : Option (List Row)) (i r : String)
    (sc : Int) (j c s : String) :
    ∀ x ∈ update_annotation store i r sc j c s, keyMatch i r x = true →
      x = ⟨i, r, sc, j, c, s⟩ := by
  intro x hx hkx
  rw [upsert_storeRows] at hx
  unfold update_annotation at hx
  by_cases hany : (storeRows store).any (keyMatch i r) = true
  · simp only [hany, if_true] at hx
    rcases List.mem_map.mp hx with ⟨y, _, hxy⟩
    have hky : keyMatch i r y = true := by
      rw [← keyMatch_overwriteRow i r sc j c s y, hxy]
      exact hkx
    rw [← hxy, overwriteRow_of_match sc j c s hky]
  · simp only [Bool.not_eq_true] at hany
    simp only [hany, Bool.false_eq_true, if_false] at hx
    rcases List.mem_append.mp hx with hmem | hmem
    · exact absurd hkx (List.any_eq_false.mp hany x hmem)
    · exact List.mem_singleton.mp hmem

theorem any_upsert (store : Option (List Row)) (i r : String) (sc : Int)
    (j c s : String) :
    ( update_annotation store i r sc j c s).any (keyMatch i r) = true := by
  rw [upsert_storeRows]
  unfold update_annotation
  by_cases hany : (storeRows store).any (keyMatch i r) = true
  · simp only [hany, if_true]
    rcases List.any_eq_true.mp hany with ⟨x, hx, hk⟩
    refine List.any_eq_true.mpr
      ⟨overwriteRow i r sc j c s x, List.mem_map_of_mem _ hx, ?_⟩
    rw [keyMatch_overwriteRow]
    exact hk
  · simp only [Bool.not_eq_true] at hany
    simp only [hany, Bool.false_eq_true, if_false]
    exact List.any_eq_true.mpr
      ⟨⟨i, r, sc, j, c, s⟩, List.mem_append_right _ (List.mem_singleton.mpr rfl),
        keyMatch_newRow i r sc j c s⟩

theorem upsert_idem (store : Option (List Row)) (i r : String) (sc : Int)
    (j c s : String) :
    update_annotation (some ( update_annotation store i r sc j c s)) i r sc j
        c s =
      update_annotation store i r sc j c s := by
  have hany := any_upsert store i r sc j c s
  have hfix : ∀ x ∈ update_annotation store i r sc j c s,
      overwriteRow i r sc j c s x = x := by
    intro x hx
    by_cases hk : keyMatch i r x = true
    · rw [overwriteRow_of_match sc j c s hk,
        mem_upsert_match store i r sc j c s x hx hk]
    · unfold overwriteRow
      rw [if_neg hk]
  conv_lhs => rw [ update_annotation]
  simp only [hany, if_true]
  rw [List.map_congr_left hfix, List.map_id']

theorem get_annotation_some (df : List Row) (i r : String) :
    get_annotation (some df) i r =
      match df.filter (keyMatch i r) with
      | [] => none
      | z :: _ => some ⟨z.score, z.justification⟩ := rfl

theorem get_upsert (store : Option (List Row)) (i r : String) (sc : Int)
    (j c s : String) :
    get_annotation (some ( update_annotation store i r sc j c s)) i r =
      some ⟨sc, j⟩ := by
  have hany := any_upsert store i r sc j c s
  match e : ( update_annotation store i r sc j c s).filter (keyMatch i r) with
  | [] =>
    rcases List.any_eq_true.mp hany with ⟨x, hx, hk⟩
    have hxf : x ∈ ( update_annotation store i r sc j c s).filter
        (keyMatch i r) :=
      List.mem_filter.mpr ⟨hx, hk⟩
    rw [e] at hxf
    cases hxf
  | y :: ys =>
    have hy : y ∈ ( update_annotation store i r sc j c s).filter
        (keyMatch i r) := by
      rw [e]
      exact List.mem_cons_self y ys
    rcases List.mem_filter.mp hy with ⟨hmem, hk⟩
    have hrow := mem_upsert_match store i r sc j c s y hmem hk
    rw [get_annotation_some, e, hrow]

/-! ### Claims -/

/-- C1 counterexample: on a store file that already holds two rows for the
key ("i", "r") — a state the file format permits — the two upserts leave
two rows for that key, not exactly one, because the pandas mask update
rewrites every matching row and never merges them. -/
theorem C1_counterexample :
    ¬ countKey
        ( update_annotation
          (some ( update_annotation
            (some [⟨"i", "r", 1, "x", "c", "s"⟩, ⟨"i", "r", 1, "y", "c", "s"⟩])
            "i" "r" 5 "a" "c" "s"))
          "i" "r" 2 "b" "c" "s") "i" "r" = 1 := by decide

/-- C1 (amended): for every store state holding at most one row for
(id, rater), `upsert(id, rater, 5, "a", c, s)` followed by
`upsert(id, rater, 2, "b", c, s)` leaves exactly one row for (id, rater),
with score 2, justification "b", context c, statement s — the first call's
values are fully replaced in place, never kept as a second row. -/
theorem C1_overwrite (store : Option (List Row)) (id rater c s : String)
    (h : countKey (storeRows store) id rater ≤ 1) :
    ( update_annotation
        (some ( update_annotation store id rater 5 "a" c s))
        id rater 2 "b" c s).filter (keyMatch id rater) =
      [⟨id, rater, 2, "b", c, s⟩] := by
  rw [upsert_storeRows store]
  have h1 : countKey
      ( update_annotation (some (storeRows store)) id rater 5 "a" c s)
      id rater = 1 :=
    countKey_upsert (storeRows store) id rater 5 "a" c s h
  exact filter_keyMatch_upsert _ id rater 2 "b" c s (by rw [h1])

/-- C1 witness: the amended claim evaluated on the empty store. -/
theorem C1_overwrite_witness :
    countKey (storeRows (some [])) "i" "r" ≤ 1 ∧
    ( update_annotation
        (some ( update_annotation (some []) "i" "r" 5 "a" "c" "s"))
        "i" "r" 2 "b" "c" "s").filter (keyMatch "i" "r") =
      [⟨"i", "r", 2, "b", "c", "s"⟩] :=
  ⟨by decide, C1_overwrite (some []) "i" "r" "c" "s" (by decide)⟩

/-- C2: starting from an absent store file (equivalently, an empty one),
any sequence of upsert calls leaves a store whose (item, rater) keys are
pairwise distinct — at most one row per pair — and whose row count equals
the number of distinct (item, rater) pairs among the calls. -/
theorem C2_key_uniqueness (cs : List Call) :
    storeRows ( runUpsertsFile none cs) = runUpserts [] cs ∧
    (( runUpserts [] cs).map rowKey).Nodup ∧
    ( runUpserts [] cs).length = (cs.map callKey).toFinset.card := by
  obtain ⟨hnd, hset⟩ := runUpserts_keys cs [] (by simp)
  refine ⟨storeRows_runUpsertsFile_none cs, hnd, ?_⟩
  have hlen : ( runUpserts [] cs).length =
      (( runUpserts [] cs).map rowKey).length :=
    (List.length_map _ _).symm
  rw [hlen, ← List.toFinset_card_of_nodup hnd, hset]
  simp

/-- C3 counterexample: on a store file already holding two rows for the key
("p", "q"), calling upsert twice with identical arguments leaves two rows
for that key, not exactly one, so the claim fails over arbitrary store
states. -/
theorem C3_counterexample :
    ¬ countKey
        ( update_annotation
          (some ( update_annotation
            (some [⟨"p", "q", 1, "x", "c", "s"⟩, ⟨"p", "q", 1, "y", "c", "s"⟩])
            "p" "q" 3 "z" "c" "s"))
          "p" "q" 3 "z" "c" "s") "p" "q" = 1 := by decide

/-- C3 (amended): for every store state and argument tuple, calling upsert
twice with identical arguments produces a store identical to a single call
(field values included); and when the starting store holds at most one row
for the key, the resulting store holds exactly one row for it. -/
theorem C3_idempotence (store : Option (List Row)) (i r : String) (sc : Int)
    (j c s : String) :
    update_annotation (some ( update_annotation store i r sc j c s)) i r sc
        j c s =
      update_annotation store i r sc j c s ∧
    (countKey (storeRows store) i r ≤ 1 →
      countKey
        ( update_annotation (some ( update_annotation store i r sc j c s))
          i r sc j c s) i r = 1) := by
  refine ⟨upsert_idem store i r sc j c s, fun h => ?_⟩
  rw [upsert_idem store i r sc j c s, upsert_storeRows store]
  exact countKey_upsert (storeRows store) i r sc j c s h

/-- C3 witness: idempotence evaluated on the empty store. -/
theorem C3_idempotence_witness :
    countKey (storeRows (some [])) "i2" "r2" ≤ 1 ∧
    countKey
      ( update_annotation
        (some ( update_annotation (some []) "i2" "r2" 4 "w" "c" "s"))
        "i2" "r2" 4 "w" "c" "s") "i2" "r2" = 1 :=
  ⟨by decide, (C3_idempotence (some []) "i2" "r2" 4 "w" "c" "s").2 (by decide)⟩

/-- C4: after any upsert, a point lookup for the written key returns the
written score (as an integer — the embedded score field is `Int`, matching
`int(row['score'])`) and the written justification, whatever the prior
store state was. -/
theorem C4_round_trip (store : Option (List Row)) (i r : String) (sc : Int)
    (j c s : String) :
    get_annotation (some ( update_annotation store i r sc j c s)) i r =
      some ⟨sc, j⟩ :=
  get_upsert store i r sc j c s

/-- C5 counterexample: a store file with two rows for the pair ("i", "r")
has two rows whose rater is "r", but the dict returned by the bulk lookup
collapses them under the single item key "i", so its size is 1. -/
theorem C5_counterexample :
    ¬ (( get_annotations_for_rater
          (some [⟨"i", "r", 1, "x", "c", "s"⟩, ⟨"i", "r", 2, "y", "c", "s"⟩])
          "r").length =
        (([⟨"i", "r", 1, "x", "c", "s"⟩,
           ⟨"i", "r", 2, "y", "c", "s"⟩] : List Row).filter
            (fun row => row.rater_id == "r")).length) := by decide

/-- C5 (amended): for every store state and rater r, the size of the
mapping returned by the bulk lookup equals the number of distinct item
identifiers among the rows whose rater equals r (equal to the row count
exactly when those rows have pairwise distinct item identifiers). -/
theorem C5_bulk_lookup (store : Option (List Row)) (r : String) :
    ( get_annotations_for_rater store r).length =
      (((storeRows store).filter (fun row => row.rater_id == r)).map
        Row.item_id).toFinset.card := by
  cases store with
  | none => simp [get_annotations_for_rater, storeRows]
  | some df =>
    obtain ⟨hnd, hset⟩ :=
      dictFold_keys (df.filter (fun row => row.rater_id == r)) [] (by simp)
    have h1 : get_annotations_for_rater (some df) r =
        (df.filter (fun row => row.rater_id == r)).foldl insRow [] := rfl
    have hlen : ((df.filter (fun row => row.rater_id == r)).foldl insRow
        []).length =
        (((df.filter (fun row => row.rater_id == r)).foldl insRow []).map
          Prod.fst).length :=
      (List.length_map _ _).symm
    rw [h1, hlen, ← List.toFinset_card_of_nodup hnd, hset]
    simp [storeRows]

/-- C6: a point lookup returns `None` (absent, not an error) when the store
file does not exist or holds no row for the key, and the bulk lookup
returns the empty dict when the file does not exist or holds no row for the
rater. -/
theorem C6_absent (i r : String) (df : List Row) :
    get_annotation none i r = none ∧
    ((∀ row ∈ df, keyMatch i r row = false) →
      get_annotation (some df) i r = none) ∧
    get_annotations_for_rater none r = [] ∧
    ((∀ row ∈ df, (row.rater_id == r) = false) →
      get_annotations_for_rater (some df) r = []) := by
  refine ⟨rfl, fun h => ?_, rfl, fun h2 => ?_⟩
  · rw [get_annotation_some]
    have hnil : df.filter (keyMatch i r) = [] :=
      List.filter_eq_nil_iff.mpr fun a ha => by simp [h a ha]
    rw [hnil]
  · have hnil : df.filter (fun row => row.rater_id == r) = [] :=
      List.filter_eq_nil_iff.mpr fun a ha => by simp [h2 a ha]
    show (df.filter (fun row => row.rater_id == r)).foldl insRow [] = []
    rw [hnil]
    rfl

/-- C6 witness: both lookups evaluated at a concrete missing key and
rater. -/
theorem C6_absent_witness :
    get_annotation none "i" "r" = none ∧
    get_annotation (some [⟨"x", "y", 1, "j", "c", "s"⟩]) "i" "r" = none ∧
    get_annotations_for_rater none "r" = [] ∧
    get_annotations_for_rater (some [⟨"x", "y", 1, "j", "c", "s"⟩]) "r" =
      [] := by
  obtain ⟨h1, h2, h3, h4⟩ := C6_absent "i" "r" [⟨"x", "y", 1, "j", "c", "s"⟩]
  exact ⟨h1, h2 (by decide), h3, h4 (by decide)⟩

/-- C7: with the configured test mode on and maximum count 3, `load()`
returns exactly the first `TEST_SPEECHES_COUNT` items of the underlying
collection in their original order: the result is the length-min(3, n)
prefix, and position i of the result is position i of the input for
i < 3 and absent otherwise. -/
theorem C7_bounded_subset (data : List Speech) :
    load_speeches data = data.take TEST_SPEECHES_COUNT ∧
    ( load_speeches data).length = min TEST_SPEECHES_COUNT data.length ∧
    ∀ i : Nat, ( load_speeches data)[i]? =
      if i < TEST_SPEECHES_COUNT then data[i]? else none := by
  have h0 : load_speeches data = data.take TEST_SPEECHES_COUNT := rfl
  refine ⟨h0, by rw [h0, List.length_take], fun i => ?_⟩
  rw [h0]
  by_cases hi : i < TEST_SPEECHES_COUNT
  · rw [if_pos hi, List.getElem?_take_of_lt hi]
  · rw [if_neg hi]
    apply List.getElem?_eq_none
    calc (data.take TEST_SPEECHES_COUNT).length
        ≤ TEST_SPEECHES_COUNT := by
          rw [List.length_take]
          exact Nat.min_le_left _ _
      _ ≤ i := Nat.le_of_not_lt hi

/-- C8: the write is not atomic.  After a first submission persists the row
("i1", "r"), a second submission rewrites the whole file in place with
`df.to_csv`; if the process crashes after 0 rows of the new table are
written, the file holds no rows at all and the previously persisted row
("i1", "r") is lost — contradicting the required
write-to-temp-then-replace atomicity. -/
theorem C8_non_atomic_write :
    get_annotation
        (some ( update_annotation none "i1" "r" 5 "a" "c" "s")) "i1" "r" =
      some ⟨5, "a"⟩ ∧
    crashPrefix
        ( update_annotation
          (some ( update_annotation none "i1" "r" 5 "a" "c" "s"))
          "i2" "r" 4 "b" "c" "s") 0 = [] ∧
    get_annotation
        (some (crashPrefix
          ( update_annotation
            (some ( update_annotation none "i1" "r" 5 "a" "c" "s"))
            "i2" "r" 4 "b" "c" "s") 0)) "i1" "r" = none := by decide

/-- C9: submitting with a justification that is empty after stripping
whitespace blocks the submission with the validation outcome, performs no
upsert (the store is returned unchanged), and leaves the whole session
state — in particular the cursor index — unchanged. -/
theorem C9_validation_blocks (sess : Session) (store : Option (List Row))
    (total_speeches : Nat) (speech : Speech) (score : Int)
    (justification : String) (h : pyStrip justification = "") :
    handle_submission sess store total_speeches speech score justification =
      (sess, store, SubmitOutcome.validationError) := by
  unfold handle_submission
  rw [if_pos h]

/-- C9 witness: a whitespace-only justification at a concrete session. -/
theorem C9_validation_blocks_witness :
    (pyStrip "  " = "") ∧
    handle_submission ⟨false, 1, "r"⟩ (some []) 3 ⟨"i", "t", "sp", "txt", []⟩
        4 "  " =
      (⟨false, 1, "r"⟩, some [], SubmitOutcome.validationError) :=
  ⟨by decide,
    C9_validation_blocks ⟨false, 1, "r"⟩ (some []) 3 ⟨"i", "t", "sp", "txt", []⟩
      4 "  " (by decide)⟩

/-- C10: when the store file holds duplicate rows for a key (a state upsert
never creates but the file format permits), the point lookup returns the
score and justification of the first matching row in file order, ignoring
every later row for that key. -/
theorem C10_first_match (i r : String) (df1 : List Row) (y : Row)
    (df2 : List Row) (h1 : ∀ x ∈ df1, keyMatch i r x = false)
    (hy : keyMatch i r y = true) :
    get_annotation (some (df1 ++ y :: df2)) i r =
      some ⟨y.score, y.justification⟩ := by
  rw [get_annotation_some]
  have hf1 : df1.filter (keyMatch i r) = [] :=
    List.filter_eq_nil_iff.mpr fun a ha => by simp [h1 a ha]
  rw [List.filter_append, hf1, List.filter_cons_of_pos hy]
  rfl

/-- C10 witness: a store with two rows for ("i", "r") returns the first
row's score 5 and justification "first". -/
theorem C10_first_match_witness :
    (∀ x ∈ [⟨"other", "r", 1, "j", "c", "s"⟩], keyMatch "i" "r" x = false) ∧
    keyMatch "i" "r" ⟨"i", "r", 5, "first", "c", "s"⟩ = true ∧
    get_annotation
        (some ([⟨"other", "r", 1, "j", "c", "s"⟩] ++
          ⟨"i", "r", 5, "first", "c", "s"⟩ ::
            [⟨"i", "r", 2, "second", "c", "s"⟩])) "i" "r" =
      some ⟨5, "first"⟩ :=
  ⟨by decide, by decide,
    C10_first_match "i" "r" [⟨"other", "r", 1, "j", "c", "s"⟩]
      ⟨"i", "r", 5, "first", "c", "s"⟩ [⟨"i", "r", 2, "second", "c", "s"⟩]
      (by decide) (by decide)⟩
